import Mathlib

/-!
Verification of the Sector Indicator Engine (raw-table normalizer,
indicator calculator, sector classifier, pipeline orchestrator).

Embedding conventions:
* Python `float` arithmetic is modeled as exact rational arithmetic over `ℚ`.
* A pandas cell is `Option String`; `none` models `NaN`.
* Numeric parsing models `float(str(...))` restricted to plain decimal
  literals (optional sign, digits, optional decimal point); the thousands
  separators and the decimal comma are rewritten first, as in the source.
* Strings are handled through their character lists so that all definitions
  evaluate inside the kernel.
* Fallible operations return `Option`/`Except`; exceptions raised by one
  sector's computation are modeled by a per-sector function returning
  `Except`.
-/

namespace IndeksBranz

/-- Python `str.upper()` restricted to the alphabet used by the keyword set:
ASCII letters plus the Polish letters appearing in the loader's keywords. -/
def pyUpperChar (c : Char) : Char :=
  if 'a' ≤ c ∧ c ≤ 'z' then Char.ofNat (c.toNat - 32)
  else if c = 'ł' then 'Ł'
  else if c = 'ż' then 'Ż'
  else if c = 'ó' then 'Ó'
  else if c = 'ą' then 'Ą'
  else if c = 'ę' then 'Ę'
  else if c = 'ś' then 'Ś'
  else if c = 'ć' then 'Ć'
  else if c = 'ń' then 'Ń'
  else if c = 'ź' then 'Ź'
  else c

/-- Python `str.upper()` on a label, as a character list. -/
def pyUpper (cs : List Char) : List Char := cs.map pyUpperChar

/-- Python substring test `kw in s`. -/
def isSubList (kw : List Char) : List Char → Bool
  | [] => kw.isEmpty
  | c :: rest => kw.isPrefixOf (c :: rest) || isSubList kw rest

/-- Models `.replace('\xa0', ' ').replace(' ', '').replace(',', '.')`:
drop spaces and non-breaking spaces, turn the decimal comma into a dot. -/
def cleanNumStr (cs : List Char) : List Char :=
  (cs.filter (fun c => ¬ (c = ' ' ∨ c = '\xa0'))).map
    (fun c => if c = ',' then '.' else c)

def isDigitChar (c : Char) : Bool := '0' ≤ c ∧ c ≤ '9'

def natOfDigits (cs : List Char) : ℕ :=
  cs.foldl (fun n c => 10 * n + (c.toNat - 48)) 0

def dotCount (cs : List Char) : ℕ := (cs.filter (fun c => c = '.')).length

def beforeDot (cs : List Char) : List Char := cs.takeWhile (fun c => ¬ c = '.')

def afterDot (cs : List Char) : List Char :=
  (cs.dropWhile (fun c => ¬ c = '.')).drop 1

/-- Unsigned decimal literal: `digits`, `digits.digits`, `digits.` or
`.digits` (at least one digit overall). -/
def parseDecimal (cs : List Char) : Option ℚ :=
  if dotCount cs = 0 then
    if cs ≠ [] ∧ cs.all isDigitChar then some ((natOfDigits cs : ℚ)) else none
  else if dotCount cs = 1 then
    let ip := beforeDot cs
    let fp := afterDot cs
    if (ip ≠ [] ∨ fp ≠ []) ∧ ip.all isDigitChar ∧ fp.all isDigitChar then
      some ((natOfDigits ip : ℚ) + (natOfDigits fp : ℚ) / (10 ^ fp.length))
    else none
  else none

/-- Python `float(s)` on the cleaned string (decimal literals only). -/
def parseFloat (cs : List Char) : Option ℚ :=
  match cs with
  | '-' :: rest => (parseDecimal rest).map (fun q => -q)
  | '+' :: rest => parseDecimal rest
  | _ => parseDecimal cs

/-- Embeds `parse_value` from `database_loader.py`: `None`/`NaN` and unparsable
cells become `none`. -/
def parse_value : Option String → Option ℚ
  | none => none
  | some s => parseFloat (cleanNumStr s.data)

/-- Python `int(v)` for a float `v`: truncation toward zero.  Both operands
of the integer division are non-negative, so every integer-division
convention agrees with truncation here. -/
def pyInt (v : ℚ) : ℤ :=
  if 0 ≤ v then v.num / (v.den : ℤ) else -((-v.num) / (v.den : ℤ))

example : pyInt (5 : ℚ) = 5 := by norm_num [pyInt]
example : pyUpper "zadłużenie".data = "ZADŁUŻENIE".data := by decide
example : isSubList "ZADŁUŻENIE".data "XZADŁUŻENIEY".data = true := by decide

/-! Section: Raw Table Normalizer (`database_loader.py`) -/

/-- The five canonical financial fields a raw indicator label can classify
into. -/
inductive FinField where
  | revenue
  | profit
  | assets
  | debt
  | numCompanies
deriving DecidableEq

/-- The keyword `elif` chain of `load_financial_data`, applied to the
uppercased indicator label. -/
def classifyUpper (w : List Char) : Option FinField :=
  if isSubList "PRZYCHOD".data w || isSubList "REVENUE".data w ||
      isSubList "GS".data w then some .revenue
  else if isSubList "ZYSK".data w || isSubList "PROFIT".data w ||
      isSubList "NP".data w || isSubList "WYNIK".data w then some .profit
  else if isSubList "AKTYWA".data w || isSubList "ASSETS".data w then
    some .assets
  else if isSubList "ZADŁUŻENIE".data w || isSubList "DEBT".data w ||
      isSubList "DŁUG".data w then some .debt
  else if isSubList "LICZBA".data w || isSubList "EN".data w then
    some .numCompanies
  else none

/-- Embeds `wskaznik = str(row['WSKAZNIK']).upper()` followed by the keyword
chain. -/
def classifyLabel (label : String) : Option FinField :=
  classifyUpper (pyUpper label.data)

/-- One row of `wsk_fin.csv`: the sector identifier, the indicator label,
and for each year column the (possibly `NaN`) cell. -/
structure RawRow where
  pkd : String
  wskaznik : String
  cells : List (ℤ × Option String)
deriving DecidableEq

/-- Embeds `row[year_str]` (a missing pair behaves like a `NaN` cell). -/
def RawRow.cell (r : RawRow) (y : ℤ) : Option String :=
  match r.cells.lookup y with
  | some c => c
  | none => none

/-- The financial table: the set of year columns present in the CSV header
plus all data rows. -/
structure FinTable where
  yearCols : List ℤ
  rows : List RawRow
deriving DecidableEq

/-- Embeds `pkd_code[:2] if len(pkd_code) >= 2 else pkd_code` (both cases are
`take 2`). -/
def pkdShort (pkd : String) : List Char := pkd.data.take 2

/-- Python `str.startswith` on the 2-character prefix. -/
def matchesPkd (pkd : String) (r : RawRow) : Bool :=
  (pkdShort pkd).isPrefixOf r.pkd.data

/-- Embeds `df[df['PKD'].astype(str).str.startswith(pkd_code_short, na=False)]`. -/
def filteredRows (tbl : FinTable) (pkd : String) : List RawRow :=
  tbl.rows.filter (matchesPkd pkd)

/-- The per-year dictionary entry of `result_by_year`: each of the five
fields is `none` until the first classified positive value arrives. -/
structure PartialObs where
  revenue : Option ℚ := none
  profit : Option ℚ := none
  assets : Option ℚ := none
  debt : Option ℚ := none
  num_companies : Option ℤ := none
deriving DecidableEq

/-- The first-match-wins field assignment: `scaled` for the four monetary
fields, `int(value)` of the raw parsed value for the company count. -/
def assignField (o : PartialObs) (f : Option FinField) (scaled raw : ℚ) :
    PartialObs :=
  match f with
  | some .revenue =>
    if o.revenue = none then { o with revenue := some scaled } else o
  | some .profit =>
    if o.profit = none then { o with profit := some scaled } else o
  | some .assets =>
    if o.assets = none then { o with assets := some scaled } else o
  | some .debt =>
    if o.debt = none then { o with debt := some scaled } else o
  | some .numCompanies =>
    if o.num_companies = none then { o with num_companies := some (pyInt raw) }
    else o
  | none => o

/-- Embeds `result_by_year` is an insertion-ordered dictionary, modeled as an
association list; `updateYear` creates the entry on first touch (with all
fields `none`) and applies `g` to it. -/
def updateYear (acc : List (ℤ × PartialObs)) (y : ℤ)
    (g : PartialObs → PartialObs) : List (ℤ × PartialObs) :=
  match acc with
  | [] => [(y, g {})]
  | (y', o) :: rest =>
    if y' = y then (y', g o) :: rest else (y', o) :: updateYear rest y g

/-- One iteration of the inner `for year in years` loop of
`load_financial_data`: skip years without a column, skip unparsable or
non-positive cells, scale small magnitudes by 1000, then classify and
assign first-match-wins. -/
def processCell (cols : List ℤ) (row : RawRow) (acc : List (ℤ × PartialObs))
    (y : ℤ) : List (ℤ × PartialObs) :=
  if y ∈ cols then
    match parse_value (row.cell y) with
    | none => acc
    | some v =>
      if v ≤ 0 then acc
      else
        let scaled := if v < 1000000 then v * 1000 else v
        updateYear acc y
          (fun o => assignField o (classifyLabel row.wskaznik) scaled v)
  else acc

/-- The inner `for year in years` loop of `load_financial_data` for one raw
row. -/
def processRow (cols years : List ℤ) (acc : List (ℤ × PartialObs))
    (row : RawRow) : List (ℤ × PartialObs) :=
  years.foldl (processCell cols row) acc

/-- The whole double loop `for idx, row in filtered.iterrows(): for year in
years:` building `result_by_year`. -/
def buildByYear (tbl : FinTable) (pkd : String) (years : List ℤ) :
    List (ℤ × PartialObs) :=
  (filteredRows tbl pkd).foldl (processRow tbl.yearCols years) []

/-- One canonical `SectorYearRecord` as assembled in `result_data`. -/
structure FinRecord where
  year : ℤ
  revenue : ℚ
  profit : ℚ
  assets : ℚ
  debt : ℚ
  bankruptcies : ℤ
  num_companies : ℤ
deriving DecidableEq

/-- Python `a or b` on an optional float: `None` and `0.0` are falsy. -/
def pyOrQ (v : Option ℚ) (d : ℚ) : ℚ :=
  match v with
  | some x => if x = 0 then d else x
  | none => d

/-- Python truthiness of an optional float. -/
def pyTruthyQ : Option ℚ → Bool
  | some x => x ≠ 0
  | none => false

/-- Python `a or b` on an optional int: `None` and `0` are falsy. -/
def pyOrZ (v : Option ℤ) (d : ℤ) : ℤ :=
  match v with
  | some x => if x = 0 then d else x
  | none => d

/-- The imputation chain of `load_financial_data` (`revenue = data['revenue']
or (data['profit'] * 12.5 if data['profit'] else 1000000)` and the three
lines after it), translated literally including the Python falsiness of
`or` and the never-taken zero-revenue fallbacks. -/
def imputeObs (y : ℤ) (o : PartialObs) : FinRecord :=
  let revenue := pyOrQ o.revenue
    (if pyTruthyQ o.profit then (o.profit.getD 0) * (12.5 : ℚ) else 1000000)
  let profit := pyOrQ o.profit
    (if revenue = 0 then 0 else revenue * (0.08 : ℚ))
  let assets := pyOrQ o.assets
    (if revenue = 0 then 2000000 else revenue * (1.8 : ℚ))
  let debt := pyOrQ o.debt
    (if assets = 0 then 800000 else assets * (0.4 : ℚ))
  let num_companies := pyOrZ o.num_companies 1000
  { year := y, revenue := revenue, profit := profit, assets := assets,
    debt := debt, bankruptcies := 0, num_companies := num_companies }

/-- Embeds `load_financial_data`: `None` when no raw row matches the sector prefix
or no year produced an entry, otherwise the imputed records in dictionary
insertion order (with `bankruptcies` initialized to 0). -/
def load_financial_data (tbl : FinTable) (pkd : String) (years : List ℤ) :
    Option (List FinRecord) :=
  let filtered := filteredRows tbl pkd
  if filtered.isEmpty then none
  else
    let recs := (buildByYear tbl pkd years).map (fun p => imputeObs p.1 p.2)
    if recs.isEmpty then none else some recs

/-- One row of `krz_pkd.csv` after the column aliases have been resolved:
`rok = none` models a year cell `int()` fails on (the row is skipped),
`liczba = none` models a `NaN` bankruptcy count (counted as 0). -/
structure KrzRow where
  pkd : String
  rok : Option ℤ
  liczba : Option ℤ
deriving DecidableEq

/-- Embeds `result[year] = result.get(year, 0) + upadlosci` on an insertion-ordered
dictionary. -/
def addCount (acc : List (ℤ × ℤ)) (y n : ℤ) : List (ℤ × ℤ) :=
  match acc with
  | [] => [(y, n)]
  | (y', m) :: rest =>
    if y' = y then (y', m + n) :: rest else (y', m) :: addCount rest y n

/-- One iteration of the row loop of `load_bankruptcy_data`: rows whose
year does not parse are skipped, rows outside the requested years are
ignored, matching rows add their (0 for `NaN`) count. -/
def bankStep (years : List ℤ) (acc : List (ℤ × ℤ)) (r : KrzRow) :
    List (ℤ × ℤ) :=
  match r.rok with
  | none => acc
  | some y => if y ∈ years then addCount acc y (r.liczba.getD 0) else acc

/-- Embeds `load_bankruptcy_data`: sum the bankruptcy counts of all prefix-matching
rows per requested year. -/
def load_bankruptcy_data (rows : List KrzRow) (pkd : String)
    (years : List ℤ) : Option (List (ℤ × ℤ)) :=
  let filtered := rows.filter (fun r => (pkdShort pkd).isPrefixOf r.pkd.data)
  if filtered.isEmpty then none
  else
    let result := filtered.foldl (bankStep years) []
    if result.isEmpty then none else some result

/-- First-key association-list lookup (used for the per-year dictionaries). -/
def lookupZ {β : Type} : List (ℤ × β) → ℤ → Option β
  | [], _ => none
  | (y', b) :: rest, y => if y' = y then some b else lookupZ rest y

/-- Embeds `load_sector_data_from_database`: merge the bankruptcy counts into the
financial records with a left join, missing years filled with 0. -/
def load_sector_data_from_database (tbl : FinTable) (krz : List KrzRow)
    (pkd : String) (years : List ℤ) : Option (List FinRecord) :=
  match load_financial_data tbl pkd years with
  | none => none
  | some fin =>
    let bank := (load_bankruptcy_data krz pkd years).getD []
    some (fin.map (fun r =>
      { r with bankruptcies := (lookupZ bank r.year).getD 0 }))

/-! Section: Indicator Calculator (`indicators.py`) -/

/-- The five externally supplied weights. -/
structure Weights where
  size : ℚ
  growth : ℚ
  profitability : ℚ
  debt : ℚ
  risk : ℚ

/-- Stable insertion of a record into a year-ascending list. -/
def insertByYear (r : FinRecord) : List FinRecord → List FinRecord
  | [] => [r]
  | s :: ss => if r.year ≤ s.year then r :: s :: ss else s :: insertByYear r ss

/-- Embeds `data.sort_values('year')` (year ties cannot arise from the loader). -/
def sortByYear (l : List FinRecord) : List FinRecord := l.foldr insertByYear []

/-- Embeds `_calculate_size_score`. -/
def calculate_size_score (data : List FinRecord) : ℚ :=
  match data.getLast? with
  | none => 0
  | some latest =>
    let m := (latest.revenue / 10000000 + latest.assets / 20000000 +
      (latest.num_companies : ℚ) / 10000) / 3
    min 1 (max 0 m)

/-- Embeds `_calculate_yoy_growth` for a column projection. -/
def calculate_yoy_growth (data : List FinRecord) (col : FinRecord → ℚ) : ℚ :=
  if data.length < 2 then 0
  else
    let latest := ((data.map col).getLast?).getD 0
    let previous := (((data.map col).dropLast).getLast?).getD 0
    if previous = 0 then 0 else (latest - previous) / previous

/-- Embeds `_calculate_growth_score`. -/
def calculate_growth_score (data : List FinRecord) : ℚ :=
  if data.length < 2 then 1/2
  else
    let revenue_growth := calculate_yoy_growth data (fun r => r.revenue)
    let profit_growth := calculate_yoy_growth data (fun r => r.profit)
    let assets_growth := calculate_yoy_growth data (fun r => r.assets)
    let avg_growth := (revenue_growth + profit_growth + assets_growth) / 3
    min 1 (max 0 ((avg_growth + (0.1 : ℚ)) / (0.3 : ℚ)))

/-- Embeds `_calculate_profitability_score`. -/
def calculate_profitability_score (data : List FinRecord) : ℚ :=
  match data.getLast? with
  | none => 0
  | some latest =>
    let profit_margin :=
      if latest.revenue > 0 then latest.profit / latest.revenue else 0
    min 1 (max 0 (profit_margin * 10))

/-- Embeds `_calculate_debt_score`. -/
def calculate_debt_score (data : List FinRecord) : ℚ :=
  match data.getLast? with
  | none => 1/2
  | some latest =>
    let debt_to_assets :=
      if latest.assets > 0 then latest.debt / latest.assets else 0
    max 0 (min 1 (1 - debt_to_assets))

/-- Embeds `_calculate_risk_score`. -/
def calculate_risk_score (data : List FinRecord) : ℚ :=
  match data.getLast? with
  | none => 1/2
  | some latest =>
    let bankruptcy_rate :=
      if latest.num_companies > 0 then
        (latest.bankruptcies : ℚ) / (latest.num_companies : ℚ)
      else 0
    max 0 (min 1 (1 - bankruptcy_rate * 10))

/-- Embeds `_calculate_profit_margin` (unclamped, for reporting). -/
def calculate_profit_margin (data : List FinRecord) : ℚ :=
  match data.getLast? with
  | none => 0
  | some latest =>
    if latest.revenue > 0 then latest.profit / latest.revenue else 0

/-- Embeds `_calculate_debt_to_assets` (unclamped, for reporting). -/
def calculate_debt_to_assets (data : List FinRecord) : ℚ :=
  match data.getLast? with
  | none => 0
  | some latest =>
    if latest.assets > 0 then latest.debt / latest.assets else 0

/-- Embeds `_calculate_bankruptcy_rate` (unclamped, for reporting). -/
def calculate_bankruptcy_rate (data : List FinRecord) : ℚ :=
  match data.getLast? with
  | none => 0
  | some latest =>
    if latest.num_companies > 0 then
      (latest.bankruptcies : ℚ) / (latest.num_companies : ℚ)
    else 0

/-- The dictionary returned by `calculate_sector_indicators`. -/
structure IndicatorRow where
  pkd_code : String
  size_score : ℚ
  growth_score : ℚ
  profitability_score : ℚ
  debt_score : ℚ
  risk_score : ℚ
  final_index : ℚ
  revenue_growth_yoy : ℚ
  profit_growth_yoy : ℚ
  profit_margin : ℚ
  debt_to_assets : ℚ
  bankruptcy_rate : ℚ
  num_companies : ℤ

/-- Embeds `calculate_sector_indicators`: sort by year, compute the five scores and
the weighted final index, plus the unclamped descriptive metrics. -/
def calculate_sector_indicators (w : Weights) (pkd_code : String)
    (data0 : List FinRecord) : IndicatorRow :=
  let data := sortByYear data0
  let size_score := calculate_size_score data
  let growth_score := calculate_growth_score data
  let profitability_score := calculate_profitability_score data
  let debt_score := calculate_debt_score data
  let risk_score := calculate_risk_score data
  let final_index :=
    size_score * w.size +
    growth_score * w.growth +
    profitability_score * w.profitability +
    debt_score * w.debt +
    risk_score * w.risk
  { pkd_code := pkd_code
    size_score := size_score
    growth_score := growth_score
    profitability_score := profitability_score
    debt_score := debt_score
    risk_score := risk_score
    final_index := final_index
    revenue_growth_yoy := calculate_yoy_growth data (fun r => r.revenue)
    profit_growth_yoy := calculate_yoy_growth data (fun r => r.profit)
    profit_margin := calculate_profit_margin data
    debt_to_assets := calculate_debt_to_assets data
    bankruptcy_rate := calculate_bankruptcy_rate data
    num_companies := match data.getLast? with
      | some l => l.num_companies
      | none => 0 }

/-! Section: Sector Classifier (`classifier.py`) -/

structure Category where
  name : String
  min_score : ℚ

/-- Stable insertion into a `min_score`-descending list (equal keys keep the
original order, as Python's stable `sorted(..., reverse=True)` does). -/
def insertCatDesc (c : Category) : List Category → List Category
  | [] => [c]
  | d :: ds =>
    if d.min_score ≤ c.min_score then c :: d :: ds else d :: insertCatDesc c ds

/-- Embeds `sorted(self.categories, key=lambda x: x.min_score, reverse=True)`. -/
def sortCatsDesc (cats : List Category) : List Category :=
  cats.foldr insertCatDesc []

/-- The scan inside `assign_category`, including its fixed fallback label. -/
def firstCategory (score : ℚ) : List Category → String
  | [] => "Bardzo słaba kondycja"
  | c :: cs => if score ≥ c.min_score then c.name else firstCategory score cs

/-- Embeds `assign_category` from `classifier.py`. -/
def assign_category (cats : List Category) (score : ℚ) : String :=
  firstCategory score (sortCatsDesc cats)

/-! Section: Pipeline Orchestrator (`data_collector.py`, `analysis_service.py`)

`collect_sector_data` catches every exception and returns `None`, so the
per-sector collection step is abstracted by a function
`fetch : String → Option (List FinRecord)`.  An exception raised while
computing one sector's indicators is abstracted by a per-sector function
returning `Except`. -/

inductive PipelineError where
  | dataCollectionError (msg : String)
  | calculationError (msg : String)
deriving DecidableEq

/-- Embeds `collect_all_data`: skip sectors without data, fail only when no sector
produced data (or no sector was requested at all). -/
def collect_all_data (fetch : String → Option (List FinRecord))
    (codes : List String) :
    Except PipelineError (List (String × List FinRecord)) :=
  if codes.isEmpty then .error (.dataCollectionError "Brak kodów PKD")
  else
    let results := codes.filterMap (fun c =>
      match fetch c with
      | some d => if d.isEmpty then none else some (c, d)
      | none => none)
    if results.isEmpty then
      .error (.dataCollectionError
        "Nie udało się zebrać danych dla żadnego sektora")
    else .ok results

/-- Embeds `calculate_all_indicators`: any per-sector failure is re-raised at once,
so the batch yields either every row or no row. -/
def calculate_all_indicators
    (calcSector : String → List FinRecord → Except String IndicatorRow) :
    List (String × List FinRecord) → Except String (List IndicatorRow)
  | [] => .ok []
  | p :: ps =>
    match calcSector p.1 p.2 with
    | .error e => .error e
    | .ok row =>
      match calculate_all_indicators calcSector ps with
      | .error e => .error e
      | .ok rows => .ok (row :: rows)

/-- Embeds `AnalysisService.calculate_indicators`: wrap any failure of the batch in
a `CalculationError`. -/
def service_calculate_indicators
    (calcSector : String → List FinRecord → Except String IndicatorRow)
    (sector_data : List (String × List FinRecord)) :
    Except PipelineError (List IndicatorRow) :=
  match calculate_all_indicators calcSector sector_data with
  | .ok rows => .ok rows
  | .error e => .error (.calculationError e)

/-! Section: Helper lemmas -/

lemma clamp_lower (x : ℚ) : 0 ≤ min 1 (max 0 x) :=
  le_min (by norm_num) (le_max_left 0 x)

lemma clamp_upper (x : ℚ) : min 1 (max 0 x) ≤ 1 := min_le_left 1 _

lemma clamp_lower' (x : ℚ) : 0 ≤ max 0 (min 1 x) := le_max_left 0 _

lemma clamp_upper' (x : ℚ) : max 0 (min 1 x) ≤ 1 :=
  max_le (by norm_num) (min_le_left 1 x)

lemma size_score_bounds (data : List FinRecord) :
    0 ≤ calculate_size_score data ∧ calculate_size_score data ≤ 1 := by
  cases h : data.getLast? with
  | none => simp [calculate_size_score, h]
  | some l =>
    simp only [calculate_size_score, h]
    exact ⟨clamp_lower _, clamp_upper _⟩

lemma growth_score_bounds (data : List FinRecord) :
    0 ≤ calculate_growth_score data ∧ calculate_growth_score data ≤ 1 := by
  unfold calculate_growth_score
  split
  · norm_num
  · exact ⟨clamp_lower _, clamp_upper _⟩

lemma profitability_score_bounds (data : List FinRecord) :
    0 ≤ calculate_profitability_score data ∧
      calculate_profitability_score data ≤ 1 := by
  cases h : data.getLast? with
  | none => simp [calculate_profitability_score, h]
  | some l =>
    simp only [calculate_profitability_score, h]
    exact ⟨clamp_lower _, clamp_upper _⟩

lemma debt_score_bounds (data : List FinRecord) :
    0 ≤ calculate_debt_score data ∧ calculate_debt_score data ≤ 1 := by
  cases h : data.getLast? with
  | none =>
    simp only [calculate_debt_score, h]
    norm_num
  | some l =>
    simp only [calculate_debt_score, h]
    exact ⟨clamp_lower' _, clamp_upper' _⟩

lemma risk_score_bounds (data : List FinRecord) :
    0 ≤ calculate_risk_score data ∧ calculate_risk_score data ≤ 1 := by
  cases h : data.getLast? with
  | none =>
    simp only [calculate_risk_score, h]
    norm_num
  | some l =>
    simp only [calculate_risk_score, h]
    exact ⟨clamp_lower' _, clamp_upper' _⟩

/-! Section: Claims -/

/-- C1: for every sector series and every weight tuple, the composite index
returned by the indicator calculator equals exactly
`size_score*w_size + growth_score*w_growth + profitability_score*w_profitability
+ debt_score*w_debt + risk_score*w_risk` — the dot product of the five
clamped sub-scores (each lying in [0,1]) with the externally supplied
weights, with no renormalization even when the weights do not sum to 1. -/
theorem composite_index_is_dot_product (w : Weights) (pkd : String)
    (data : List FinRecord) :
    (calculate_sector_indicators w pkd data).final_index =
      (calculate_sector_indicators w pkd data).size_score * w.size +
      (calculate_sector_indicators w pkd data).growth_score * w.growth +
      (calculate_sector_indicators w pkd data).profitability_score *
        w.profitability +
      (calculate_sector_indicators w pkd data).debt_score * w.debt +
      (calculate_sector_indicators w pkd data).risk_score * w.risk ∧
    (0 ≤ (calculate_sector_indicators w pkd data).size_score ∧
      (calculate_sector_indicators w pkd data).size_score ≤ 1) ∧
    (0 ≤ (calculate_sector_indicators w pkd data).growth_score ∧
      (calculate_sector_indicators w pkd data).growth_score ≤ 1) ∧
    (0 ≤ (calculate_sector_indicators w pkd data).profitability_score ∧
      (calculate_sector_indicators w pkd data).profitability_score ≤ 1) ∧
    (0 ≤ (calculate_sector_indicators w pkd data).debt_score ∧
      (calculate_sector_indicators w pkd data).debt_score ≤ 1) ∧
    (0 ≤ (calculate_sector_indicators w pkd data).risk_score ∧
      (calculate_sector_indicators w pkd data).risk_score ≤ 1) :=
  ⟨rfl, size_score_bounds _, growth_score_bounds _, profitability_score_bounds _,
    debt_score_bounds _, risk_score_bounds _⟩

/-- C5: a sector whose record series is empty gets (without error) size
score 0, profitability score 0, growth score 0.5, debt score 0.5 and risk
score 0.5. -/
theorem empty_series_default_scores (w : Weights) (pkd : String) :
    (calculate_sector_indicators w pkd []).size_score = 0 ∧
    (calculate_sector_indicators w pkd []).profitability_score = 0 ∧
    (calculate_sector_indicators w pkd []).growth_score = 1/2 ∧
    (calculate_sector_indicators w pkd []).debt_score = 1/2 ∧
    (calculate_sector_indicators w pkd []).risk_score = 1/2 :=
  ⟨rfl, rfl, rfl, rfl, rfl⟩

lemma yoy_growth_append (pre : List FinRecord) (r1 r2 : FinRecord)
    (col : FinRecord → ℚ) :
    calculate_yoy_growth (pre ++ [r1, r2]) col =
      if col r1 = 0 then 0 else (col r2 - col r1) / col r1 := by
  have hmap : (pre ++ [r1, r2]).map col = (pre.map col ++ [col r1]) ++ [col r2] := by
    simp
  unfold calculate_yoy_growth
  rw [if_neg (by simp)]
  rw [hmap, List.getLast?_concat, List.dropLast_concat, List.getLast?_concat]
  simp

/-- C4: for every series with at least two records the growth score is the
clamp to [0,1] of `(avg + 0.10) / 0.30`, where `avg` is the mean of the
year-over-year growth rates `(latest - previous)/previous` of revenue,
profit and assets between the last two records (each rate 0 when the
previous value is 0); with fewer than two records the growth score is
exactly 0.5. -/
theorem growth_score_spec :
    (∀ (pre : List FinRecord) (r1 r2 : FinRecord),
      calculate_growth_score (pre ++ [r1, r2]) =
        min 1 (max 0
          ((((if r1.revenue = 0 then 0
              else (r2.revenue - r1.revenue) / r1.revenue) +
             (if r1.profit = 0 then 0
              else (r2.profit - r1.profit) / r1.profit) +
             (if r1.assets = 0 then 0
              else (r2.assets - r1.assets) / r1.assets)) / 3 + 1/10) /
            (3/10)))) ∧
    calculate_growth_score [] = 1/2 ∧
    (∀ r : FinRecord, calculate_growth_score [r] = 1/2) := by
  refine ⟨?_, rfl, fun r => rfl⟩
  intro pre r1 r2
  unfold calculate_growth_score
  rw [if_neg (by simp)]
  rw [yoy_growth_append, yoy_growth_append, yoy_growth_append]
  norm_num

/-- An observed optional float is positive if present (the loader only
stores values that parsed to a positive number). -/
def posOptQ : Option ℚ → Prop
  | some x => 0 < x
  | none => True

instance (v : Option ℚ) : Decidable (posOptQ v) :=
  match v with
  | some x => inferInstanceAs (Decidable (0 < x))
  | none => inferInstanceAs (Decidable True)

/-- An observed optional company count is non-negative if present (the
loader stores `int(value)` of a positive value, which may truncate to 0). -/
def nonnegOptZ : Option ℤ → Prop
  | some n => 0 ≤ n
  | none => True

instance (v : Option ℤ) : Decidable (nonnegOptZ v) :=
  match v with
  | some n => inferInstanceAs (Decidable (0 ≤ n))
  | none => inferInstanceAs (Decidable True)

/-- C3: for a (sector, year) entry, missing fields are imputed in the fixed
order revenue, profit, assets, debt, num_companies from already-resolved
siblings: revenue from `profit × 12.5` (else the fixed default 1,000,000),
profit from `revenue × 0.08`, assets from `revenue × 1.8`, debt from
`assets × 0.4`, and num_companies from the fixed default 1000; observed
values are kept.  The hypotheses record the loader invariant that observed
monetary values are positive. -/
lemma imputeObs_revenue (y : ℤ) (o : PartialObs) :
    (imputeObs y o).revenue = pyOrQ o.revenue
      (if pyTruthyQ o.profit then (o.profit.getD 0) * (12.5 : ℚ)
       else 1000000) := rfl

lemma imputeObs_profit (y : ℤ) (o : PartialObs) :
    (imputeObs y o).profit = pyOrQ o.profit
      (if (imputeObs y o).revenue = 0 then 0
       else (imputeObs y o).revenue * (0.08 : ℚ)) := rfl

lemma imputeObs_assets (y : ℤ) (o : PartialObs) :
    (imputeObs y o).assets = pyOrQ o.assets
      (if (imputeObs y o).revenue = 0 then 2000000
       else (imputeObs y o).revenue * (1.8 : ℚ)) := rfl

lemma imputeObs_debt (y : ℤ) (o : PartialObs) :
    (imputeObs y o).debt = pyOrQ o.debt
      (if (imputeObs y o).assets = 0 then 800000
       else (imputeObs y o).assets * (0.4 : ℚ)) := rfl

lemma imputeObs_num_companies (y : ℤ) (o : PartialObs) :
    (imputeObs y o).num_companies = pyOrZ o.num_companies 1000 := rfl

lemma imputeObs_revenue_pos (y : ℤ) (o : PartialObs)
    (hr : posOptQ o.revenue) (hp : posOptQ o.profit) :
    0 < (imputeObs y o).revenue := by
  rw [imputeObs_revenue]
  cases hrv : o.revenue with
  | some v =>
    rw [hrv] at hr
    simp only [posOptQ] at hr
    simp [pyOrQ, ne_of_gt hr, hr]
  | none =>
    cases hpv : o.profit with
    | some p =>
      rw [hpv] at hp
      simp only [posOptQ] at hp
      simp only [pyOrQ, pyTruthyQ, hpv, Option.getD_some]
      rw [if_pos (by simp [ne_of_gt hp])]
      norm_num [hp]
    | none => simp [pyOrQ, pyTruthyQ, hpv]

lemma imputeObs_assets_pos (y : ℤ) (o : PartialObs)
    (hr : posOptQ o.revenue) (hp : posOptQ o.profit)
    (ha : posOptQ o.assets) :
    0 < (imputeObs y o).assets := by
  have hrev_pos := imputeObs_revenue_pos y o hr hp
  rw [imputeObs_assets]
  cases hav : o.assets with
  | some v =>
    rw [hav] at ha
    simp only [posOptQ] at ha
    simp [pyOrQ, ne_of_gt ha, ha]
  | none =>
    simp only [pyOrQ]
    rw [if_neg (ne_of_gt hrev_pos)]
    have h18 : (0 : ℚ) < (1.8 : ℚ) := by norm_num
    exact mul_pos hrev_pos h18

theorem imputation_chain_spec (y : ℤ) (o : PartialObs)
    (hr : posOptQ o.revenue) (hp : posOptQ o.profit)
    (ha : posOptQ o.assets) :
    (o.revenue = none →
      (imputeObs y o).revenue =
        (match o.profit with
         | some p => p * (12.5 : ℚ)
         | none => 1000000)) ∧
    (∀ v, o.revenue = some v → (imputeObs y o).revenue = v) ∧
    (o.profit = none →
      (imputeObs y o).profit = (imputeObs y o).revenue * (0.08 : ℚ)) ∧
    (∀ v, o.profit = some v → (imputeObs y o).profit = v) ∧
    (o.assets = none →
      (imputeObs y o).assets = (imputeObs y o).revenue * (1.8 : ℚ)) ∧
    (∀ v, o.assets = some v → (imputeObs y o).assets = v) ∧
    (o.debt = none →
      (imputeObs y o).debt = (imputeObs y o).assets * (0.4 : ℚ)) ∧
    (o.num_companies = none → (imputeObs y o).num_companies = 1000) := by
  have hrev_pos := imputeObs_revenue_pos y o hr hp
  have hassets_pos := imputeObs_assets_pos y o hr hp ha
  refine ⟨?_, ?_, ?_, ?_, ?_, ?_, ?_, ?_⟩
  · intro h
    rw [imputeObs_revenue, h]
    cases hpv : o.profit with
    | some p =>
      rw [hpv] at hp
      simp only [posOptQ] at hp
      simp [pyOrQ, pyTruthyQ, hpv, ne_of_gt hp]
    | none => simp [pyOrQ, pyTruthyQ, hpv]
  · intro v hv
    rw [hv] at hr
    simp only [posOptQ] at hr
    rw [imputeObs_revenue, hv]
    simp [pyOrQ, ne_of_gt hr]
  · intro h
    rw [imputeObs_profit, h]
    simp only [pyOrQ]
    rw [if_neg (ne_of_gt hrev_pos)]
  · intro v hv
    rw [hv] at hp
    simp only [posOptQ] at hp
    rw [imputeObs_profit, hv]
    simp [pyOrQ, ne_of_gt hp]
  · intro h
    rw [imputeObs_assets, h]
    simp only [pyOrQ]
    rw [if_neg (ne_of_gt hrev_pos)]
  · intro v hv
    rw [hv] at ha
    simp only [posOptQ] at ha
    rw [imputeObs_assets, hv]
    simp [pyOrQ, ne_of_gt ha]
  · intro h
    rw [imputeObs_debt, h]
    simp only [pyOrQ]
    rw [if_neg (ne_of_gt hassets_pos)]
  · intro h
    rw [imputeObs_num_companies, h]
    simp [pyOrZ]

/-- Witness for C3: with only `profit = 800000` observed, the imputed record
has revenue 10,000,000, assets 18,000,000 and debt 7,200,000. -/
theorem imputation_chain_spec_witness :
    (imputeObs 2020 { profit := some 800000 }).revenue = 10000000 ∧
    (imputeObs 2020 { profit := some 800000 }).assets = 18000000 ∧
    (imputeObs 2020 { profit := some 800000 }).debt = 7200000 := by
  have h := imputation_chain_spec 2020 { profit := some 800000 }
    trivial (by norm_num [posOptQ]) trivial
  have hrev := h.1 rfl
  simp only at hrev
  have hrev' : (imputeObs 2020 { profit := some 800000 }).revenue = 10000000 := by
    rw [hrev]; norm_num
  have hassets := h.2.2.2.2.1 rfl
  have hassets' : (imputeObs 2020 { profit := some 800000 }).assets = 18000000 := by
    rw [hassets, hrev']; norm_num
  have hdebt := h.2.2.2.2.2.2.1 rfl
  refine ⟨hrev', hassets', ?_⟩
  rw [hdebt, hassets']
  norm_num

/-! Sortedness facts about the classifier's descending sort. -/

/-- Descending order on categories, by `min_score`. -/
def CatGE (a b : Category) : Prop := b.min_score ≤ a.min_score

lemma mem_insertCatDesc {x c : Category} {l : List Category} :
    x ∈ insertCatDesc c l ↔ x = c ∨ x ∈ l := by
  induction l with
  | nil => simp [insertCatDesc]
  | cons d ds ih =>
    simp only [insertCatDesc]
    split
    · simp [or_comm, or_assoc, or_left_comm]
    · simp [ih]
      tauto

lemma sorted_insertCatDesc {c : Category} {l : List Category}
    (h : l.Sorted CatGE) : (insertCatDesc c l).Sorted CatGE := by
  induction l with
  | nil => simp [insertCatDesc]
  | cons d ds ih =>
    rw [List.sorted_cons] at h
    obtain ⟨hd, hds⟩ := h
    simp only [insertCatDesc]
    split
    · rename_i hle
      rw [List.sorted_cons]
      refine ⟨?_, ?_⟩
      · intro b hb
        rcases List.mem_cons.mp hb with rfl | hb'
        · exact hle
        · exact le_trans (hd b hb') hle
      · rw [List.sorted_cons]
        exact ⟨hd, hds⟩
    · rename_i hgt
      rw [List.sorted_cons]
      refine ⟨?_, ih hds⟩
      · intro b hb
        rw [mem_insertCatDesc] at hb
        rcases hb with rfl | hb'
        · exact le_of_not_le hgt
        · exact hd b hb'

lemma mem_sortCatsDesc {x : Category} {l : List Category} :
    x ∈ sortCatsDesc l ↔ x ∈ l := by
  induction l with
  | nil => simp [sortCatsDesc]
  | cons d ds ih =>
    simp only [sortCatsDesc, List.foldr_cons]
    rw [mem_insertCatDesc]
    simp only [sortCatsDesc] at ih
    simp [ih]

lemma sorted_sortCatsDesc (l : List Category) :
    (sortCatsDesc l).Sorted CatGE := by
  induction l with
  | nil => simp [sortCatsDesc]
  | cons d ds ih => exact sorted_insertCatDesc ih

lemma firstCategory_spec (v : ℚ) (l : List Category) (h : l.Sorted CatGE) :
    (∃ c ∈ l, c.min_score ≤ v ∧ firstCategory v l = c.name ∧
      ∀ c' ∈ l, c'.min_score ≤ v → c'.min_score ≤ c.min_score) ∨
    ((∀ c ∈ l, v < c.min_score) ∧
      firstCategory v l = "Bardzo słaba kondycja") := by
  induction l with
  | nil => right; simp [firstCategory]
  | cons c cs ih =>
    rw [List.sorted_cons] at h
    obtain ⟨hc, hcs⟩ := h
    by_cases hv : c.min_score ≤ v
    · left
      refine ⟨c, List.mem_cons_self c cs, hv, ?_, ?_⟩
      · simp [firstCategory, hv]
      · intro c' hc' _
        rcases List.mem_cons.mp hc' with rfl | hmem
        · exact le_refl _
        · exact hc c' hmem
    · have hstep : firstCategory v (c :: cs) = firstCategory v cs := by
        simp [firstCategory, hv]
      rcases ih hcs with ⟨c₀, hmem, hsat, heq, hmax⟩ | ⟨hall, heq⟩
      · left
        refine ⟨c₀, List.mem_cons_of_mem c hmem, hsat, by rw [hstep]; exact heq, ?_⟩
        intro c' hc' hsat'
        rcases List.mem_cons.mp hc' with rfl | hmem'
        · exact absurd hsat' hv
        · exact hmax c' hmem' hsat'
      · right
        refine ⟨?_, by rw [hstep]; exact heq⟩
        intro c' hc'
        rcases List.mem_cons.mp hc' with rfl | hmem'
        · exact lt_of_not_le hv
        · exact hall c' hmem'

/-- C2: for every composite index value `v` and category list,
`assign_category` returns the name of a category whose `min_score` is the
highest one satisfying `min_score ≤ v`; if no category satisfies it, the
fixed fallback label "Bardzo słaba kondycja" ("very poor health") is
returned.  The function is pure (deterministic and stateless) by
construction. -/
theorem assign_category_spec (cats : List Category) (v : ℚ) :
    (∃ c ∈ cats, c.min_score ≤ v ∧ assign_category cats v = c.name ∧
      ∀ c' ∈ cats, c'.min_score ≤ v → c'.min_score ≤ c.min_score) ∨
    ((∀ c ∈ cats, v < c.min_score) ∧
      assign_category cats v = "Bardzo słaba kondycja") := by
  have h := firstCategory_spec v (sortCatsDesc cats) (sorted_sortCatsDesc cats)
  rcases h with ⟨c, hmem, hsat, heq, hmax⟩ | ⟨hall, heq⟩
  · left
    refine ⟨c, mem_sortCatsDesc.mp hmem, hsat, heq, ?_⟩
    intro c' hc' hsat'
    exact hmax c' (mem_sortCatsDesc.mpr hc') hsat'
  · right
    refine ⟨?_, heq⟩
    intro c hc
    exact hall c (mem_sortCatsDesc.mpr hc)

/-! Orchestrator lemmas. -/

lemma calculate_all_error_iff
    (calcSector : String → List FinRecord → Except String IndicatorRow)
    (xs : List (String × List FinRecord)) :
    (∃ e, calculate_all_indicators calcSector xs = .error e) ↔
      ∃ p ∈ xs, ∃ e, calcSector p.1 p.2 = .error e := by
  induction xs with
  | nil => simp [calculate_all_indicators]
  | cons p ps ih =>
    simp only [calculate_all_indicators]
    cases hc : calcSector p.1 p.2 with
    | error e => simp [hc]
    | ok row =>
      cases hrec : calculate_all_indicators calcSector ps with
      | error e =>
        simp only []
        constructor
        · intro _
          rcases ih.mp ⟨e, hrec⟩ with ⟨q, hq, e', he'⟩
          exact ⟨q, List.mem_cons_of_mem p hq, e', he'⟩
        · intro _
          exact ⟨e, rfl⟩
      | ok rows =>
        simp only []
        constructor
        · rintro ⟨e, he⟩
          exact absurd he (by simp)
        · rintro ⟨q, hq, e', he'⟩
          rcases List.mem_cons.mp hq with rfl | hmem
          · rw [hc] at he'
            exact absurd he' (by simp)
          · rcases ih.mpr ⟨q, hmem, e', he'⟩ with ⟨e, he⟩
            rw [hrec] at he
            exact absurd he (by simp)

lemma calculate_all_ok
    (calcSector : String → List FinRecord → Except String IndicatorRow)
    (xs : List (String × List FinRecord)) (rows : List IndicatorRow)
    (h : calculate_all_indicators calcSector xs = .ok rows) :
    ∀ p ∈ xs, ∃ row, calcSector p.1 p.2 = .ok row := by
  induction xs generalizing rows with
  | nil => intro p hp; exact absurd hp (by simp)
  | cons q qs ih =>
    intro p hp
    simp only [calculate_all_indicators] at h
    cases hc : calcSector q.1 q.2 with
    | error e => rw [hc] at h; exact absurd h (by simp)
    | ok row =>
      rw [hc] at h
      cases hrec : calculate_all_indicators calcSector qs with
      | error e => rw [hrec] at h; exact absurd h (by simp)
      | ok rows' =>
        rcases List.mem_cons.mp hp with rfl | hmem
        · exact ⟨row, hc⟩
        · exact ih rows' hrec p hmem

/-- C7: batch error policy.  (1) Collection raises `DataCollectionError`
exactly when no requested sector produces data; (2) on success the batch
contains exactly the sectors that produced data (failing sectors are
skipped, the batch continues); (3) an exception while computing one
sector's indicators surfaces as a `CalculationError` for the whole batch,
and (4) a successful batch means every sector's computation succeeded (no
partial table is ever produced). -/
theorem batch_error_policy
    (fetch : String → Option (List FinRecord)) (codes : List String)
    (calcSector : String → List FinRecord → Except String IndicatorRow)
    (sector_data : List (String × List FinRecord)) :
    ((∃ e, collect_all_data fetch codes = .error (.dataCollectionError e)) ↔
      ∀ c ∈ codes, fetch c = none ∨ fetch c = some []) ∧
    (∀ res, collect_all_data fetch codes = .ok res →
      ∀ c d, ((c, d) ∈ res ↔ c ∈ codes ∧ fetch c = some d ∧ d ≠ [])) ∧
    ((∃ e, service_calculate_indicators calcSector sector_data =
        .error (.calculationError e)) ↔
      ∃ p ∈ sector_data, ∃ e, calcSector p.1 p.2 = .error e) ∧
    (∀ rows, service_calculate_indicators calcSector sector_data = .ok rows →
      ∀ p ∈ sector_data, ∃ row, calcSector p.1 p.2 = .ok row) := by
  refine ⟨?_, ?_, ?_, ?_⟩
  · unfold collect_all_data
    by_cases hc : codes.isEmpty
    · rw [List.isEmpty_iff] at hc
      subst hc
      simp
    · simp only [hc, Bool.false_eq_true, if_false]
      split
      · rename_i hres
        rw [List.isEmpty_iff, List.filterMap_eq_nil_iff] at hres
        constructor
        · intro _ c hcmem
          have := hres c hcmem
          cases hf : fetch c with
          | none => exact Or.inl rfl
          | some d =>
            rw [hf] at this
            simp only [] at this
            split at this
            · rename_i hde
              rw [List.isEmpty_iff] at hde
              exact Or.inr (by rw [hde])
            · exact absurd this (by simp)
        · intro _
          exact ⟨"Nie udało się zebrać danych dla żadnego sektora", rfl⟩
      · rename_i hres
        constructor
        · rintro ⟨e, he⟩
          exact absurd he (by simp)
        · intro hall
          exfalso
          apply hres
          rw [List.isEmpty_iff, List.filterMap_eq_nil_iff]
          intro c hcmem
          rcases hall c hcmem with hf | hf
          · rw [hf]
          · rw [hf]
            simp
  · intro res hres c d
    unfold collect_all_data at hres
    by_cases hc : codes.isEmpty
    · rw [hc] at hres
      exact absurd hres (by simp)
    · simp only [hc, Bool.false_eq_true, if_false] at hres
      split at hres
      · exact absurd hres (by simp)
      · have hres' : res = codes.filterMap (fun c =>
            match fetch c with
            | some d => if d.isEmpty then none else some (c, d)
            | none => none) := by
          cases hres
          rfl
        rw [hres', List.mem_filterMap]
        constructor
        · rintro ⟨a, ha, hfa⟩
          cases hf : fetch a with
          | none => rw [hf] at hfa; exact absurd hfa (by simp)
          | some dd =>
            rw [hf] at hfa
            simp only [] at hfa
            split at hfa
            · exact absurd hfa (by simp)
            · rename_i hde
              have : a = c ∧ dd = d := by
                constructor
                · exact congrArg Prod.fst (Option.some.inj hfa)
                · exact congrArg Prod.snd (Option.some.inj hfa)
              obtain ⟨rfl, rfl⟩ := this
              refine ⟨ha, hf, ?_⟩
              intro hnil
              rw [hnil] at hde
              simp at hde
        · rintro ⟨hcmem, hf, hdne⟩
          refine ⟨c, hcmem, ?_⟩
          rw [hf]
          simp only []
          rw [if_neg (by simpa using hdne)]
  · unfold service_calculate_indicators
    cases hcalc : calculate_all_indicators calcSector sector_data with
    | error e =>
      simp only []
      constructor
      · intro _
        exact (calculate_all_error_iff calcSector sector_data).mp ⟨e, hcalc⟩
      · intro _
        exact ⟨e, rfl⟩
    | ok rows =>
      simp only []
      constructor
      · rintro ⟨e, he⟩
        exact absurd he (by simp)
      · intro hex
        rcases (calculate_all_error_iff calcSector sector_data).mpr hex with ⟨e, he⟩
        rw [hcalc] at he
        exact absurd he (by simp)
  · intro rows hok p hp
    unfold service_calculate_indicators at hok
    cases hcalc : calculate_all_indicators calcSector sector_data with
    | error e => rw [hcalc] at hok; exact absurd hok (by simp)
    | ok rows' =>
      exact calculate_all_ok calcSector sector_data rows' hcalc p hp

/-- A concrete record used by the C7 witness. -/
def recW : FinRecord :=
  { year := 2020, revenue := 1, profit := 1, assets := 1, debt := 1,
    bankruptcies := 0, num_companies := 1 }

/-- A concrete per-sector collector used by the C7 witness: only sector
"01" has data. -/
def fetchW : String → Option (List FinRecord) :=
  fun c => if c = "01" then some [recW] else none

/-- A concrete indicator row used by the C7 witness. -/
def rowW : IndicatorRow :=
  { pkd_code := "01", size_score := 0, growth_score := 0,
    profitability_score := 0, debt_score := 0, risk_score := 0,
    final_index := 0, revenue_growth_yoy := 0, profit_growth_yoy := 0,
    profit_margin := 0, debt_to_assets := 0, bankruptcy_rate := 0,
    num_companies := 0 }

/-- A concrete always-succeeding per-sector calculator for the C7 witness. -/
def calcOkW : String → List FinRecord → Except String IndicatorRow :=
  fun _ _ => .ok rowW

/-- Witness for C7: sector "02" yields no data and is skipped while "01" is
kept, and a fully successful batch certifies every sector's computation. -/
theorem batch_error_policy_witness :
    (("01", [recW]) ∈ [("01", [recW])] ↔
      "01" ∈ ["01", "02"] ∧ fetchW "01" = some [recW] ∧ [recW] ≠ []) ∧
    (∃ row, calcOkW "01" [recW] = .ok row) := by
  have h := batch_error_policy fetchW ["01", "02"] calcOkW [("01", [recW])]
  refine ⟨h.2.1 [("01", [recW])] rfl "01" [recW], ?_⟩
  exact h.2.2.2 [rowW] rfl ("01", [recW]) (List.mem_singleton_self _)

/-! Machinery for the first-match-wins characterization of the loader. -/

/-- Keep the first defined optional value (Python's "only assign when the
slot is still `None`"). -/
def ofirst (a b : Option ℚ) : Option ℚ :=
  match a with
  | some x => some x
  | none => b

lemma ofirst_none_left (b : Option ℚ) : ofirst none b = b := rfl

lemma ofirst_none_right (a : Option ℚ) : ofirst a none = a := by
  cases a <;> rfl

lemma ofirst_assoc (a b c : Option ℚ) :
    ofirst (ofirst a b) c = ofirst a (ofirst b c) := by
  cases a <;> cases b <;> rfl

lemma ofirst_absorb (a s : Option ℚ) : ofirst (ofirst a s) s = ofirst a s := by
  cases a <;> cases s <;> rfl

/-- The slot of `result_by_year[year]` a field classifies into, viewed
uniformly as an optional rational (the company count is cast). -/
def obsProj (f : FinField) (o : PartialObs) : Option ℚ :=
  match f with
  | .revenue => o.revenue
  | .profit => o.profit
  | .assets => o.assets
  | .debt => o.debt
  | .numCompanies => o.num_companies.map (fun n => (n : ℚ))

/-- The value stored for `(year, field)` in the accumulated dictionary. -/
def obsField (acc : List (ℤ × PartialObs)) (y : ℤ) (f : FinField) :
    Option ℚ :=
  match lookupZ acc y with
  | some o => obsProj f o
  | none => none

/-- The value the loader stores for a parsed raw value `v` classifying into
field `f`: the four monetary fields get `v × 1000` below the magnitude
threshold 1,000,000 (and `v` unchanged above it), while the company count
gets `int(v)` of the unscaled value. -/
def storedValue (f : FinField) (v : ℚ) : ℚ :=
  match f with
  | .numCompanies => (pyInt v : ℚ)
  | _ => if v < 1000000 then v * 1000 else v

/-- What a single cell assignment writes into slot `f`. -/
def assignedValue (f : FinField) (scaled raw : ℚ) : ℚ :=
  match f with
  | .numCompanies => (pyInt raw : ℚ)
  | _ => scaled

lemma assignedValue_scaled (f : FinField) (v : ℚ) :
    assignedValue f (if v < 1000000 then v * 1000 else v) v = storedValue f v := by
  cases f <;> rfl

/-- Modelled from the claim's words: the contribution of one raw row to
`(year, field)` — the scaled value if the requested year has a column, the
cell parses to a positive number and the label classifies into the field,
and nothing otherwise. -/
def cellStores (cols : List ℤ) (row : RawRow) (y : ℤ) (f : FinField) :
    Option ℚ :=
  if y ∈ cols then
    match parse_value (row.cell y) with
    | none => none
    | some v =>
      if v ≤ 0 then none
      else if classifyLabel row.wskaznik = some f then some (storedValue f v)
      else none
  else none

/-- Modelled from the claim's words: the value of the first raw row (in raw
table order) that classifies into the field with a valid positive cell. -/
def firstStoredAux (cols : List ℤ) (y : ℤ) (f : FinField) :
    List RawRow → Option ℚ
  | [] => none
  | r :: rs => ofirst (cellStores cols r y f) (firstStoredAux cols y f rs)

/-- As `firstStoredAux`, restricted to requested years. -/
def firstStored (cols years : List ℤ) (rows : List RawRow) (y : ℤ)
    (f : FinField) : Option ℚ :=
  if y ∈ years then firstStoredAux cols y f rows else none

lemma lookupZ_updateYear_self (acc : List (ℤ × PartialObs)) (y : ℤ)
    (g : PartialObs → PartialObs) :
    lookupZ (updateYear acc y g) y = some (g ((lookupZ acc y).getD {})) := by
  induction acc with
  | nil => simp [updateYear, lookupZ]
  | cons p rest ih =>
    obtain ⟨y', o⟩ := p
    simp only [updateYear]
    by_cases h : y' = y
    · subst h
      simp [lookupZ]
    · rw [if_neg h]
      simp only [lookupZ, if_neg h]
      exact ih

lemma lookupZ_updateYear_other (acc : List (ℤ × PartialObs)) (y y' : ℤ)
    (g : PartialObs → PartialObs) (h : y' ≠ y) :
    lookupZ (updateYear acc y' g) y = lookupZ acc y := by
  induction acc with
  | nil => simp [updateYear, lookupZ, if_neg h]
  | cons p rest ih =>
    obtain ⟨y'', o⟩ := p
    simp only [updateYear]
    by_cases h2 : y'' = y'
    · subst h2
      have hne : y'' ≠ y := fun hh => h (hh ▸ rfl)
      simp [lookupZ, if_neg hne]
    · rw [if_neg h2]
      simp only [lookupZ]
      by_cases h3 : y'' = y
      · simp [if_pos h3]
      · simp only [if_neg h3]
        exact ih

lemma obsProj_assignField_ne (o : PartialObs) (g f : FinField) (hgf : g ≠ f)
    (scaled raw : ℚ) :
    obsProj f (assignField o (some g) scaled raw) = obsProj f o := by
  cases g <;> cases f <;> (try exact absurd rfl hgf) <;>
    simp only [assignField] <;> split <;> rfl

lemma obsProj_assignField_eq (o : PartialObs) (f : FinField)
    (scaled raw : ℚ) :
    obsProj f (assignField o (some f) scaled raw) =
      ofirst (obsProj f o) (some (assignedValue f scaled raw)) := by
  cases f with
  | revenue =>
    cases hx : o.revenue <;>
      simp [assignField, obsProj, assignedValue, ofirst, hx]
  | profit =>
    cases hx : o.profit <;>
      simp [assignField, obsProj, assignedValue, ofirst, hx]
  | assets =>
    cases hx : o.assets <;>
      simp [assignField, obsProj, assignedValue, ofirst, hx]
  | debt =>
    cases hx : o.debt <;>
      simp [assignField, obsProj, assignedValue, ofirst, hx]
  | numCompanies =>
    cases hx : o.num_companies <;>
      simp [assignField, obsProj, assignedValue, ofirst, hx]

lemma obsProj_assignField (o : PartialObs) (cls : Option FinField)
    (scaled raw : ℚ) (f : FinField) :
    obsProj f (assignField o cls scaled raw) =
      ofirst (obsProj f o)
        (if cls = some f then some (assignedValue f scaled raw) else none) := by
  cases cls with
  | none =>
    show obsProj f o = _
    simp [ofirst_none_right]
  | some g =>
    by_cases hgf : g = f
    · subst hgf
      rw [if_pos rfl]
      exact obsProj_assignField_eq o g scaled raw
    · rw [if_neg (by simpa using hgf), ofirst_none_right]
      exact obsProj_assignField_ne o g f hgf scaled raw

lemma obsProj_default (f : FinField) : obsProj f {} = none := by
  cases f <;> rfl

lemma obsField_eq_obsProj_getD (acc : List (ℤ × PartialObs)) (y : ℤ)
    (f : FinField) :
    obsField acc y f = obsProj f ((lookupZ acc y).getD {}) := by
  unfold obsField
  cases lookupZ acc y with
  | none => exact (obsProj_default f).symm
  | some o => rfl

lemma obsField_updateYear_self (acc : List (ℤ × PartialObs)) (y : ℤ)
    (g : PartialObs → PartialObs) (f : FinField) :
    obsField (updateYear acc y g) y f =
      obsProj f (g ((lookupZ acc y).getD {})) := by
  unfold obsField
  rw [lookupZ_updateYear_self]

lemma obsField_updateYear_other (acc : List (ℤ × PartialObs)) (y y' : ℤ)
    (g : PartialObs → PartialObs) (f : FinField) (h : y' ≠ y) :
    obsField (updateYear acc y' g) y f = obsField acc y f := by
  unfold obsField
  rw [lookupZ_updateYear_other _ _ _ _ h]

lemma obsField_processCell (cols : List ℤ) (row : RawRow)
    (acc : List (ℤ × PartialObs)) (y' y : ℤ) (f : FinField) :
    obsField (processCell cols row acc y') y f =
      if y' = y then ofirst (obsField acc y f) (cellStores cols row y f)
      else obsField acc y f := by
  by_cases hyy : y' = y
  · subst hyy
    rw [if_pos rfl]
    unfold processCell cellStores
    by_cases hcols : y' ∈ cols
    · rw [if_pos hcols, if_pos hcols]
      cases hp : parse_value (row.cell y') with
      | none => simp [ofirst_none_right]
      | some v =>
        by_cases hv : v ≤ 0
        · simp [if_pos hv, ofirst_none_right]
        · simp only [if_neg hv]
          rw [obsField_updateYear_self, obsProj_assignField,
            assignedValue_scaled, ← obsField_eq_obsProj_getD]
    · rw [if_neg hcols, if_neg hcols, ofirst_none_right]
  · rw [if_neg hyy]
    unfold processCell
    by_cases hcols : y' ∈ cols
    · rw [if_pos hcols]
      cases hp : parse_value (row.cell y') with
      | none => rfl
      | some v =>
        by_cases hv : v ≤ 0
        · simp [if_pos hv]
        · simp only [if_neg hv]
          exact obsField_updateYear_other _ _ _ _ _ hyy
    · rw [if_neg hcols]

lemma obsField_processRow (cols years : List ℤ)
    (acc : List (ℤ × PartialObs)) (row : RawRow) (y : ℤ) (f : FinField) :
    obsField (processRow cols years acc row) y f =
      if y ∈ years then ofirst (obsField acc y f) (cellStores cols row y f)
      else obsField acc y f := by
  induction years generalizing acc with
  | nil => simp [processRow]
  | cons y' ys ih =>
    show obsField (processRow cols ys (processCell cols row acc y') row) y f = _
    rw [ih, obsField_processCell]
    by_cases h1 : y' = y
    · subst h1
      by_cases h2 : y' ∈ ys
      · simp [h2, ofirst_absorb]
      · simp [h2]
    · by_cases h2 : y ∈ ys
      · simp [h1, h2, List.mem_cons]
      · have : ¬ y ∈ y' :: ys := by
          simp [List.mem_cons]
          exact ⟨fun hh => h1 hh.symm, h2⟩
        simp [h1, h2, this]

lemma obsField_foldl_rows (cols years : List ℤ) (rows : List RawRow)
    (acc : List (ℤ × PartialObs)) (y : ℤ) (f : FinField) :
    obsField (rows.foldl (processRow cols years) acc) y f =
      ofirst (obsField acc y f) (firstStored cols years rows y f) := by
  induction rows generalizing acc with
  | nil =>
    simp [firstStored, firstStoredAux, ofirst_none_right, ite_self]
  | cons r rs ih =>
    simp only [List.foldl_cons]
    rw [ih, obsField_processRow]
    simp only [firstStored, firstStoredAux]
    by_cases hy : y ∈ years
    · simp only [if_pos hy]
      rw [ofirst_assoc]
    · simp only [if_neg hy, ofirst_none_right]

lemma obsField_buildByYear (tbl : FinTable) (pkd : String) (years : List ℤ)
    (y : ℤ) (f : FinField) :
    obsField (buildByYear tbl pkd years) y f =
      firstStored tbl.yearCols years (filteredRows tbl pkd) y f := by
  unfold buildByYear
  rw [obsField_foldl_rows]
  have : obsField [] y f = none := rfl
  rw [this, ofirst_none_left]

/-! Membership facts about the accumulated dictionaries. -/

lemma mem_updateYear {p : ℤ × PartialObs} (acc : List (ℤ × PartialObs))
    (y : ℤ) (g : PartialObs → PartialObs) (hp : p ∈ updateYear acc y g) :
    p ∈ acc ∨ ∃ o, p = (y, g o) ∧ (o = {} ∨ (y, o) ∈ acc) := by
  induction acc with
  | nil =>
    simp only [updateYear, List.mem_singleton] at hp
    exact Or.inr ⟨{}, hp, Or.inl rfl⟩
  | cons q rest ih =>
    obtain ⟨y', o'⟩ := q
    simp only [updateYear] at hp
    by_cases h : y' = y
    · subst h
      rw [if_pos rfl] at hp
      rcases List.mem_cons.mp hp with rfl | hmem
      · exact Or.inr ⟨o', rfl, Or.inr (List.mem_cons_self _ _)⟩
      · exact Or.inl (List.mem_cons_of_mem _ hmem)
    · rw [if_neg h] at hp
      rcases List.mem_cons.mp hp with rfl | hmem
      · exact Or.inl (List.mem_cons_self _ _)
      · rcases ih hmem with hin | ⟨o, rfl, ho⟩
        · exact Or.inl (List.mem_cons_of_mem _ hin)
        · refine Or.inr ⟨o, rfl, ?_⟩
          rcases ho with rfl | hin
          · exact Or.inl rfl
          · exact Or.inr (List.mem_cons_of_mem _ hin)

lemma mem_processCell {p : ℤ × PartialObs} (cols : List ℤ) (row : RawRow)
    (acc : List (ℤ × PartialObs)) (y' : ℤ)
    (hp : p ∈ processCell cols row acc y') :
    p ∈ acc ∨
      (p.1 = y' ∧ ∃ o v, p.2 = assignField o (classifyLabel row.wskaznik)
        (if v < 1000000 then v * 1000 else v) v ∧ 0 < v ∧
        (o = {} ∨ (y', o) ∈ acc)) := by
  unfold processCell at hp
  split at hp
  · cases hparse : parse_value (row.cell y') with
    | none => rw [hparse] at hp; exact Or.inl hp
    | some v =>
      rw [hparse] at hp
      simp only [] at hp
      split at hp
      · exact Or.inl hp
      · rename_i hv
        rcases mem_updateYear _ _ _ hp with hin | ⟨o, rfl, ho⟩
        · exact Or.inl hin
        · exact Or.inr ⟨rfl, o, v, rfl, lt_of_not_le hv, ho⟩
  · exact Or.inl hp

/-- All monetary fields of a stored observation are positive and the stored
company count is non-negative. -/
def GoodObs (o : PartialObs) : Prop :=
  posOptQ o.revenue ∧ posOptQ o.profit ∧ posOptQ o.assets ∧ posOptQ o.debt ∧
    nonnegOptZ o.num_companies

lemma goodObs_default : GoodObs {} :=
  ⟨trivial, trivial, trivial, trivial, trivial⟩

lemma pyInt_nonneg {v : ℚ} (hv : 0 < v) : 0 ≤ pyInt v := by
  unfold pyInt
  rw [if_pos (le_of_lt hv)]
  have hnum : 0 ≤ v.num := le_of_lt (Rat.num_pos.mpr hv)
  have hden : (0 : ℤ) ≤ (v.den : ℤ) := Int.ofNat_nonneg _
  exact Int.ediv_nonneg hnum hden

lemma goodObs_assignField {o : PartialObs} (hg : GoodObs o)
    (cls : Option FinField) {v : ℚ} (hv : 0 < v) :
    GoodObs (assignField o cls (if v < 1000000 then v * 1000 else v) v) := by
  have hscaled : 0 < (if v < 1000000 then v * 1000 else v) := by
    split
    · have : (0 : ℚ) < 1000 := by norm_num
      exact mul_pos hv this
    · exact hv
  obtain ⟨h1, h2, h3, h4, h5⟩ := hg
  cases cls with
  | none => exact ⟨h1, h2, h3, h4, h5⟩
  | some f =>
    cases f with
    | revenue =>
      simp only [assignField]
      split
      · exact ⟨hscaled, h2, h3, h4, h5⟩
      · exact ⟨h1, h2, h3, h4, h5⟩
    | profit =>
      simp only [assignField]
      split
      · exact ⟨h1, hscaled, h3, h4, h5⟩
      · exact ⟨h1, h2, h3, h4, h5⟩
    | assets =>
      simp only [assignField]
      split
      · exact ⟨h1, h2, hscaled, h4, h5⟩
      · exact ⟨h1, h2, h3, h4, h5⟩
    | debt =>
      simp only [assignField]
      split
      · exact ⟨h1, h2, h3, hscaled, h5⟩
      · exact ⟨h1, h2, h3, h4, h5⟩
    | numCompanies =>
      simp only [assignField]
      split
      · exact ⟨h1, h2, h3, h4, pyInt_nonneg hv⟩
      · exact ⟨h1, h2, h3, h4, h5⟩

lemma goodObs_processCell {cols : List ℤ} {row : RawRow}
    {acc : List (ℤ × PartialObs)} {y' : ℤ}
    (hacc : ∀ p ∈ acc, GoodObs p.2) :
    ∀ p ∈ processCell cols row acc y', GoodObs p.2 := by
  intro p hp
  rcases mem_processCell cols row acc y' hp with hin | ⟨_, o, v, hpv, hv, ho⟩
  · exact hacc p hin
  · rw [hpv]
    have hgo : GoodObs o := by
      rcases ho with rfl | hin
      · exact goodObs_default
      · exact hacc _ hin
    exact goodObs_assignField hgo _ hv

lemma goodObs_processRow (cols years : List ℤ) :
    ∀ (acc : List (ℤ × PartialObs)) (row : RawRow),
      (∀ p ∈ acc, GoodObs p.2) →
      ∀ p ∈ processRow cols years acc row, GoodObs p.2 := by
  induction years with
  | nil => intro acc row hacc; exact hacc
  | cons y' ys ih =>
    intro acc row hacc p hp
    exact ih (processCell cols row acc y') row (goodObs_processCell hacc) p hp

lemma goodObs_foldl_rows (cols years : List ℤ) :
    ∀ (rows : List RawRow) (acc : List (ℤ × PartialObs)),
      (∀ p ∈ acc, GoodObs p.2) →
      ∀ p ∈ rows.foldl (processRow cols years) acc, GoodObs p.2 := by
  intro rows
  induction rows with
  | nil => intro acc hacc; exact hacc
  | cons r rs ih =>
    intro acc hacc p hp
    simp only [List.foldl_cons] at hp
    exact ih _ (goodObs_processRow cols years acc r hacc) p hp

lemma goodObs_buildByYear (tbl : FinTable) (pkd : String) (years : List ℤ) :
    ∀ p ∈ buildByYear tbl pkd years, GoodObs p.2 := by
  unfold buildByYear
  exact goodObs_foldl_rows _ _ _ [] (by intro p hp; exact absurd hp (by simp))

/-! Years appearing in the dictionary are requested years. -/

lemma keys_processCell {p : ℤ × PartialObs} (cols : List ℤ) (row : RawRow)
    (acc : List (ℤ × PartialObs)) (y' : ℤ)
    (hp : p ∈ processCell cols row acc y') : p ∈ acc ∨ p.1 = y' := by
  rcases mem_processCell cols row acc y' hp with hin | ⟨h1, _⟩
  · exact Or.inl hin
  · exact Or.inr h1

lemma keys_processRow (cols years : List ℤ) :
    ∀ (acc : List (ℤ × PartialObs)) (row : RawRow)
      (p : ℤ × PartialObs), p ∈ processRow cols years acc row →
      p ∈ acc ∨ p.1 ∈ years := by
  induction years with
  | nil => intro acc row p hp; exact Or.inl hp
  | cons y' ys ih =>
    intro acc row p hp
    rcases ih (processCell cols row acc y') row p hp with hin | hmem
    · rcases keys_processCell cols row acc y' hin with hin' | h1
      · exact Or.inl hin'
      · exact Or.inr (by rw [h1]; exact List.mem_cons_self _ _)
    · exact Or.inr (List.mem_cons_of_mem _ hmem)

lemma keys_foldl_rows (cols years : List ℤ) :
    ∀ (rows : List RawRow) (acc : List (ℤ × PartialObs))
      (p : ℤ × PartialObs), p ∈ rows.foldl (processRow cols years) acc →
      p ∈ acc ∨ p.1 ∈ years := by
  intro rows
  induction rows with
  | nil => intro acc p hp; exact Or.inl hp
  | cons r rs ih =>
    intro acc p hp
    simp only [List.foldl_cons] at hp
    rcases ih _ p hp with hin | hmem
    · exact keys_processRow cols years acc r p hin
    · exact Or.inr hmem

lemma keys_buildByYear (tbl : FinTable) (pkd : String) (years : List ℤ)
    (p : ℤ × PartialObs) (hp : p ∈ buildByYear tbl pkd years) :
    p.1 ∈ years := by
  rcases keys_foldl_rows tbl.yearCols years (filteredRows tbl pkd) [] p hp with
    hin | hmem
  · exact absurd hin (by simp)
  · exact hmem

/-! The bankruptcy sum. -/

/-- Total of the (0 for `NaN`) bankruptcy counts of a list of rows. -/
def sumCounts : List KrzRow → ℤ
  | [] => 0
  | r :: rs => r.liczba.getD 0 + sumCounts rs

/-- Modelled from the claim's words: the bankruptcy count of
`(sector prefix, year)` is the sum over all raw rows whose identifier
starts with the prefix and whose year parses to the requested year. -/
def bankSum (krz : List KrzRow) (pkd : String) (y : ℤ) : ℤ :=
  sumCounts ((krz.filter
    (fun r => (pkdShort pkd).isPrefixOf r.pkd.data)).filter
      (fun r => r.rok == some y))

lemma lookupZ_addCount_self (acc : List (ℤ × ℤ)) (y n : ℤ) :
    lookupZ (addCount acc y n) y = some ((lookupZ acc y).getD 0 + n) := by
  induction acc with
  | nil => simp [addCount, lookupZ]
  | cons p rest ih =>
    obtain ⟨y', m⟩ := p
    simp only [addCount]
    by_cases h : y' = y
    · subst h
      simp [lookupZ]
    · rw [if_neg h]
      simp only [lookupZ, if_neg h]
      exact ih

lemma lookupZ_addCount_other (acc : List (ℤ × ℤ)) (y y' n : ℤ)
    (h : y' ≠ y) :
    lookupZ (addCount acc y' n) y = lookupZ acc y := by
  induction acc with
  | nil => simp [addCount, lookupZ, if_neg h]
  | cons p rest ih =>
    obtain ⟨y'', m⟩ := p
    simp only [addCount]
    by_cases h2 : y'' = y'
    · subst h2
      have hne : y'' ≠ y := fun hh => h (hh ▸ rfl)
      simp [lookupZ, if_neg hne]
    · rw [if_neg h2]
      simp only [lookupZ]
      by_cases h3 : y'' = y
      · simp [if_pos h3]
      · simp only [if_neg h3]
        exact ih

lemma bankStep_none (years : List ℤ) (acc : List (ℤ × ℤ)) (r : KrzRow)
    (hrok : r.rok = none) : bankStep years acc r = acc := by
  unfold bankStep
  rw [hrok]

lemma bankStep_some (years : List ℤ) (acc : List (ℤ × ℤ)) (r : KrzRow)
    (yy : ℤ) (hrok : r.rok = some yy) :
    bankStep years acc r =
      if yy ∈ years then addCount acc yy (r.liczba.getD 0) else acc := by
  unfold bankStep
  rw [hrok]

lemma lookupZ_bankStep_fold (years : List ℤ) (y : ℤ) (hy : y ∈ years) :
    ∀ (rows : List KrzRow) (acc : List (ℤ × ℤ)),
      (lookupZ (rows.foldl (bankStep years) acc) y).getD 0 =
        (lookupZ acc y).getD 0 +
          sumCounts (rows.filter (fun r => r.rok == some y)) := by
  intro rows
  induction rows with
  | nil => intro acc; simp [sumCounts]
  | cons r rs ih =>
    intro acc
    simp only [List.foldl_cons, List.filter_cons]
    cases hrok : r.rok with
    | none =>
      have hpred : ((none : Option ℤ) == some y) = false := rfl
      rw [hpred]
      simp only [Bool.false_eq_true, if_false]
      rw [bankStep_none years acc r hrok, ih]
    | some yy =>
      by_cases hyy : yy = y
      · subst hyy
        have hpred : ((some yy : Option ℤ) == some yy) = true :=
          beq_self_eq_true _
        rw [hpred]
        simp only [if_pos rfl]
        rw [bankStep_some years acc r yy hrok, if_pos hy, ih,
          lookupZ_addCount_self]
        simp only [Option.getD_some, sumCounts]
        ring
      · have hpred : ((some yy : Option ℤ) == some y) = false := by
          simp [hyy]
        rw [hpred]
        simp only [Bool.false_eq_true, if_false]
        rw [bankStep_some years acc r yy hrok]
        by_cases hmem : yy ∈ years
        · rw [if_pos hmem, ih, lookupZ_addCount_other _ _ _ _ hyy]
        · rw [if_neg hmem, ih]

lemma load_bankruptcy_lookup (krz : List KrzRow) (pkd : String)
    (years : List ℤ) (y : ℤ) (hy : y ∈ years) :
    (lookupZ ((load_bankruptcy_data krz pkd years).getD []) y).getD 0 =
      bankSum krz pkd y := by
  simp only [load_bankruptcy_data, bankSum]
  split
  · rename_i hemp
    rw [List.isEmpty_iff] at hemp
    rw [hemp]
    simp [lookupZ, sumCounts]
  · have hfold := lookupZ_bankStep_fold years y hy
      (krz.filter (fun r => (pkdShort pkd).isPrefixOf r.pkd.data)) []
    split
    · rename_i hres
      rw [List.isEmpty_iff] at hres
      rw [hres] at hfold
      simp only [lookupZ, Option.getD_none] at hfold ⊢
      omega
    · simp only [Option.getD_some]
      rw [hfold]
      simp [lookupZ]

lemma load_financial_data_eq (tbl : FinTable) (pkd : String)
    (years : List ℤ) (recs : List FinRecord)
    (h : load_financial_data tbl pkd years = some recs) :
    recs = (buildByYear tbl pkd years).map (fun p => imputeObs p.1 p.2) := by
  simp only [load_financial_data] at h
  split at h
  · exact absurd h (by simp)
  · split at h
    · exact absurd h (by simp)
    · exact (Option.some.inj h).symm

lemma imputeObs_year (y : ℤ) (o : PartialObs) : (imputeObs y o).year = y := rfl

lemma load_financial_record_years (tbl : FinTable) (pkd : String)
    (years : List ℤ) (recs : List FinRecord)
    (h : load_financial_data tbl pkd years = some recs) :
    ∀ r ∈ recs, r.year ∈ years := by
  intro r hr
  rw [load_financial_data_eq tbl pkd years recs h] at hr
  rcases List.mem_map.mp hr with ⟨p, hp, rfl⟩
  show p.1 ∈ years
  exact keys_buildByYear tbl pkd years p hp

/-- C6: for every (sector, year, field) the normalizer keeps the value of
the first raw row (in raw-table order) whose cell parses to a positive
number and whose label classifies into that field, discarding later rows
for the same field — financial rows are never aggregated.  Bankruptcy
counts, by contrast, ARE aggregated: every emitted record's count is the
sum over all prefix-matching rows of the bankruptcy table for its year,
and a year absent from that table yields the empty sum 0. -/
theorem first_match_and_bankruptcy_sum :
    (∀ (tbl : FinTable) (pkd : String) (years : List ℤ) (y : ℤ)
        (f : FinField),
      obsField (buildByYear tbl pkd years) y f =
        firstStored tbl.yearCols years (filteredRows tbl pkd) y f) ∧
    (∀ (tbl : FinTable) (krz : List KrzRow) (pkd : String) (years : List ℤ)
        (recs : List FinRecord),
      load_sector_data_from_database tbl krz pkd years = some recs →
      ∀ r ∈ recs, r.bankruptcies = bankSum krz pkd r.year) := by
  refine ⟨obsField_buildByYear, ?_⟩
  intro tbl krz pkd years recs h r hr
  simp only [load_sector_data_from_database] at h
  cases hfin : load_financial_data tbl pkd years with
  | none => rw [hfin] at h; exact absurd h (by simp)
  | some fin =>
    rw [hfin] at h
    have hrecs : recs = fin.map (fun r0 =>
        { r0 with bankruptcies :=
            (lookupZ ((load_bankruptcy_data krz pkd years).getD [])
              r0.year).getD 0 }) := (Option.some.inj h).symm
    rw [hrecs] at hr
    rcases List.mem_map.mp hr with ⟨r0, hr0, rfl⟩
    have hyear : r0.year ∈ years :=
      load_financial_record_years tbl pkd years fin hfin r0 hr0
    show (lookupZ ((load_bankruptcy_data krz pkd years).getD [])
      r0.year).getD 0 = bankSum krz pkd _
    exact load_bankruptcy_lookup krz pkd years r0.year hyear

/-- The concrete financial table of the C6 witness: two revenue rows share
the sector prefix "01" for both years (first-match-wins visible). -/
def tblW6 : FinTable :=
  { yearCols := [2020, 2021]
    rows := [
      { pkd := "01.1", wskaznik := "Przychody"
        cells := [(2020, some "2000000"), (2021, some "2500000")] },
      { pkd := "01.2", wskaznik := "Przychody"
        cells := [(2020, some "3000000"), (2021, none)] },
      { pkd := "01.3", wskaznik := "Aktywa"
        cells := [(2020, some "4000000"), (2021, some "5000000")] }] }

/-- The concrete bankruptcy table of the C6 witness: two rows for 2020 sum
to 7, one row belongs to another sector, 2021 is absent. -/
def krzW6 : List KrzRow :=
  [ { pkd := "01.1", rok := some 2020, liczba := some 3 },
    { pkd := "01.9", rok := some 2020, liczba := some 4 },
    { pkd := "02.1", rok := some 2020, liczba := some 100 } ]

/-- The 2020 record the loader produces for `tblW6`/`krzW6`. -/
def recW6a : FinRecord :=
  { year := 2020, revenue := 2000000, profit := 2000000 * (0.08 : ℚ),
    assets := 4000000, debt := 4000000 * (0.4 : ℚ), bankruptcies := 7,
    num_companies := 1000 }

/-- The 2021 record the loader produces for `tblW6`/`krzW6`. -/
def recW6b : FinRecord :=
  { year := 2021, revenue := 2500000, profit := 2500000 * (0.08 : ℚ),
    assets := 5000000, debt := 5000000 * (0.4 : ℚ), bankruptcies := 0,
    num_companies := 1000 }

/-- Witness for C6: on the concrete tables, 2020 gets the summed count 7,
the absent year 2021 gets 0, and the first-match equation is instantiated
at the revenue field. -/
theorem first_match_and_bankruptcy_sum_witness :
    recW6a.bankruptcies = bankSum krzW6 "01" 2020 ∧
    recW6b.bankruptcies = bankSum krzW6 "01" 2021 ∧
    bankSum krzW6 "01" 2020 = 7 ∧
    bankSum krzW6 "01" 2021 = 0 ∧
    obsField (buildByYear tblW6 "01" [2020, 2021]) 2020 FinField.revenue =
      firstStored tblW6.yearCols [2020, 2021] (filteredRows tblW6 "01") 2020
        FinField.revenue := by
  have h := first_match_and_bankruptcy_sum
  have hload : load_sector_data_from_database tblW6 krzW6 "01" [2020, 2021] =
      some [recW6a, recW6b] := rfl
  refine ⟨?_, ?_, by decide, by decide,
    h.1 tblW6 "01" [2020, 2021] 2020 FinField.revenue⟩
  · exact h.2 tblW6 krzW6 "01" [2020, 2021] [recW6a, recW6b] hload recW6a
      (List.mem_cons_self _ _)
  · exact h.2 tblW6 krzW6 "01" [2020, 2021] [recW6a, recW6b] hload recW6b
      (List.mem_cons_of_mem _ (List.mem_singleton_self _))

/-- The single raw row of the C9 counterexample: a company-count label with
the small value 5. -/
def rowW9 : RawRow :=
  { pkd := "01.1", wskaznik := "Liczba", cells := [(2020, some "5")] }

/-- The C9 counterexample table. -/
def tblW9 : FinTable := { yearCols := [2020], rows := [rowW9] }

/-- Counterexample to C9 as stated: the cell "5" parses to the positive
value 5 below the threshold 1,000,000 and classifies into the company-count
field, yet the stored value is 5 (the integer truncation), not 5 × 1000 as
the claim asserts for all five fields. -/
theorem value_scaling_counterexample :
    obsField (buildByYear tblW9 "01" [2020]) 2020 FinField.numCompanies =
      some 5 ∧
    (5 : ℚ) < 1000000 ∧ ¬ (5 : ℚ) = 5 * 1000 := by
  refine ⟨rfl, by norm_num, by norm_num⟩

/-- C9 (amended): a raw cell that parses to a positive number and
classifies into a field is stored scaled ×1000 below the magnitude
threshold 1,000,000 (unchanged above it) for the four monetary fields,
while a company count is stored as the integer truncation of the unscaled
parsed value (`storedValue`); an unparsable cell contributes nothing. -/
theorem value_scaling_amended (cols years : List ℤ)
    (acc : List (ℤ × PartialObs)) (row : RawRow) (y : ℤ) (f : FinField) :
    (∀ v : ℚ, parse_value (row.cell y) = some v → 0 < v →
      classifyLabel row.wskaznik = some f →
      y ∈ years → y ∈ cols → obsField acc y f = none →
      obsField (processRow cols years acc row) y f =
        some (storedValue f v)) ∧
    (parse_value (row.cell y) = none →
      obsField (processRow cols years acc row) y f = obsField acc y f) := by
  constructor
  · intro v hv hvpos hcls hyears hcols hnone
    rw [obsField_processRow, if_pos hyears, hnone, ofirst_none_left]
    unfold cellStores
    rw [if_pos hcols, hv]
    show (if v ≤ 0 then none
      else if classifyLabel row.wskaznik = some f then some (storedValue f v)
      else none) = some (storedValue f v)
    rw [if_neg (not_le.mpr hvpos), if_pos hcls]
  · intro hnone
    rw [obsField_processRow]
    by_cases hy : y ∈ years
    · rw [if_pos hy]
      unfold cellStores
      by_cases hc : y ∈ cols
      · rw [if_pos hc, hnone]
        show ofirst (obsField acc y f) none = _
        rw [ofirst_none_right]
      · rw [if_neg hc, ofirst_none_right]
    · rw [if_neg hy]

/-- Witness for C9 (amended): the row `rowW9` stores `int(5) = 5` into the
company-count slot, while the same value in a monetary field would be
stored as `5 × 1000`. -/
theorem value_scaling_amended_witness :
    obsField (processRow [2020] [2020] [] rowW9) 2020 FinField.numCompanies =
      some (storedValue FinField.numCompanies 5) ∧
    storedValue FinField.numCompanies 5 = 5 ∧
    storedValue FinField.revenue 5 = 5 * 1000 := by
  refine ⟨(value_scaling_amended [2020] [2020] [] rowW9 2020
      FinField.numCompanies).1 5 rfl (by norm_num) rfl (by decide) (by decide)
      rfl, ?_, ?_⟩
  · show (pyInt 5 : ℚ) = 5
    norm_num [pyInt]
  · show (if (5 : ℚ) < 1000000 then (5 : ℚ) * 1000 else 5) = 5 * 1000
    rw [if_pos (by norm_num)]

lemma imputeObs_profit_pos (y : ℤ) (o : PartialObs)
    (hr : posOptQ o.revenue) (hp : posOptQ o.profit) :
    0 < (imputeObs y o).profit := by
  have hrev := imputeObs_revenue_pos y o hr hp
  rw [imputeObs_profit]
  cases hpv : o.profit with
  | some v =>
    rw [hpv] at hp
    simp only [posOptQ] at hp
    simp [pyOrQ, ne_of_gt hp, hp]
  | none =>
    simp only [pyOrQ]
    rw [if_neg (ne_of_gt hrev)]
    exact mul_pos hrev (by norm_num)

lemma imputeObs_debt_pos (y : ℤ) (o : PartialObs)
    (hr : posOptQ o.revenue) (hp : posOptQ o.profit) (ha : posOptQ o.assets)
    (hd : posOptQ o.debt) :
    0 < (imputeObs y o).debt := by
  have hassets := imputeObs_assets_pos y o hr hp ha
  rw [imputeObs_debt]
  cases hdv : o.debt with
  | some v =>
    rw [hdv] at hd
    simp only [posOptQ] at hd
    simp [pyOrQ, ne_of_gt hd, hd]
  | none =>
    simp only [pyOrQ]
    rw [if_neg (ne_of_gt hassets)]
    exact mul_pos hassets (by norm_num)

lemma imputeObs_num_companies_pos (y : ℤ) (o : PartialObs)
    (hn : nonnegOptZ o.num_companies) :
    0 < (imputeObs y o).num_companies := by
  rw [imputeObs_num_companies]
  cases hnv : o.num_companies with
  | some n =>
    rw [hnv] at hn
    simp only [nonnegOptZ] at hn
    simp only [pyOrZ]
    split
    · norm_num
    · rename_i hne
      omega
  | none => simp [pyOrZ]

/-- C10: every record emitted by the normalizer has strictly positive
revenue, profit, assets, debt and num_companies — observed values are
positive by the parse filter, every imputation fallback multiplies a
positive sibling by a positive constant or substitutes a positive default,
and a company count truncating to 0 falls back to 1000. -/
theorem emitted_records_positive (tbl : FinTable) (krz : List KrzRow)
    (pkd : String) (years : List ℤ) (recs : List FinRecord)
    (h : load_sector_data_from_database tbl krz pkd years = some recs) :
    ∀ r ∈ recs, 0 < r.revenue ∧ 0 < r.profit ∧ 0 < r.assets ∧ 0 < r.debt ∧
      0 < r.num_companies := by
  intro r hr
  simp only [load_sector_data_from_database] at h
  cases hfin : load_financial_data tbl pkd years with
  | none => rw [hfin] at h; exact absurd h (by simp)
  | some fin =>
    rw [hfin] at h
    have hrecs : recs = fin.map (fun r0 =>
        { r0 with bankruptcies :=
            (lookupZ ((load_bankruptcy_data krz pkd years).getD [])
              r0.year).getD 0 }) := (Option.some.inj h).symm
    rw [hrecs] at hr
    rcases List.mem_map.mp hr with ⟨r0, hr0, rfl⟩
    rw [load_financial_data_eq tbl pkd years fin hfin] at hr0
    rcases List.mem_map.mp hr0 with ⟨p, hp, rfl⟩
    obtain ⟨h1, h2, h3, h4, h5⟩ := goodObs_buildByYear tbl pkd years p hp
    exact ⟨imputeObs_revenue_pos p.1 p.2 h1 h2,
      imputeObs_profit_pos p.1 p.2 h1 h2,
      imputeObs_assets_pos p.1 p.2 h1 h2 h3,
      imputeObs_debt_pos p.1 p.2 h1 h2 h3 h4,
      imputeObs_num_companies_pos p.1 p.2 h5⟩

/-- The C10 witness table: revenue and assets observed for one year. -/
def tblW10 : FinTable :=
  { yearCols := [2020]
    rows := [
      { pkd := "01.1", wskaznik := "Przychody"
        cells := [(2020, some "2000000")] },
      { pkd := "01.1", wskaznik := "Aktywa"
        cells := [(2020, some "3000000")] }] }

/-- The record the loader produces for `tblW10` (profit and debt imputed). -/
def recW10 : FinRecord :=
  { year := 2020, revenue := 2000000, profit := 2000000 * (0.08 : ℚ),
    assets := 3000000, debt := 3000000 * (0.4 : ℚ), bankruptcies := 0,
    num_companies := 1000 }

/-- Witness for C10 on the concrete table `tblW10`. -/
theorem emitted_records_positive_witness :
    0 < recW10.revenue ∧ 0 < recW10.profit ∧ 0 < recW10.assets ∧
      0 < recW10.debt ∧ 0 < recW10.num_companies :=
  emitted_records_positive tblW10 [] "01" [2020] [recW10] rfl recW10
    (List.mem_singleton_self _)

end IndeksBranz
